import Mathlib

/-!
Verification of the go-raknet reliable-UDP core (SA-MP RakNet dialect).

The definitions below are a shallow embedding of the Go sources:
  * `source/protocol/protocol.go` (package `protocol`): `BitStream` address
    codec, `EncapsulatedPacket`, `DataPacket.Encode` / `DecodeDataPacket`,
    `ACK.Encode` / `NACK.Encode`, `Session` with `AddToQueue`, `Update`,
    `HandleDataPacket`, `HandleACK`, `HandleNACK`.
  * `pkg/raknet/protocol.go` (package `raknet`): the second ACK encoder
    `EncodeACK`.
Go bytes are modelled as `Nat` values; `byte(v)` truncation is `v % 256`,
`uint16(v)` is `v % 65536`, `uint32` increments wrap modulo `2^32`.
Go maps are modelled as association lists (insert replaces the key, so
`List.length` equals the Go map `len`), except the per-channel order map,
whose Go reads default to `0` and which is therefore a total function.
-/

namespace GoRakNet

/-- Go `WriteUint24`: 3 bytes, little-endian (`byte(v)`, `byte(v>>8)`, `byte(v>>16)`). -/
def writeUint24 (v : Nat) : List Nat :=
  [v % 256, v / 256 % 256, v / 65536 % 256]

/-- Read a 24-bit little-endian value from the front of a byte list
(`b[0] | b[1]<<8 | b[2]<<16`); `0` when fewer than 3 bytes, matching the
Go zero value of a field the decoder never wrote. -/
def readUint24 : List Nat → Nat
  | b1 :: b2 :: b3 :: _ => b1 + b2 * 256 + b3 * 65536
  | _ => 0

/-- Go `WriteUint16` (big-endian, `binary.BigEndian.PutUint16`). -/
def writeUint16BE (v : Nat) : List Nat :=
  [v / 256 % 256, v % 256]

/-- Big-endian 16-bit read from the front of a byte list. -/
def readUint16BE : List Nat → Nat
  | b1 :: b2 :: _ => b1 * 256 + b2
  | _ => 0

/-- Go `WriteUint32` (big-endian, `binary.BigEndian.PutUint32`). -/
def writeUint32BE (v : Nat) : List Nat :=
  [v / 16777216 % 256, v / 65536 % 256, v / 256 % 256, v % 256]

/-- Big-endian 32-bit read from the front of a byte list. -/
def readUint32BE : List Nat → Nat
  | b1 :: b2 :: b3 :: b4 :: _ => b1 * 16777216 + b2 * 65536 + b3 * 256 + b4
  | _ => 0

/-- Bounds-checked slice read: models the decoder guards
`if offset+n > len(data) { break }` followed by consuming `n` bytes. -/
def takeN (n : Nat) (l : List Nat) : Option (List Nat × List Nat) :=
  if n ≤ l.length then some (l.take n, l.drop n) else none

-- Reliability tiers (package protocol constants).
def UNRELIABLE : Nat := 0
def UNRELIABLE_SEQUENCED : Nat := 1
def RELIABLE : Nat := 2
def RELIABLE_ORDERED : Nat := 3
def RELIABLE_SEQUENCED : Nat := 4
def UNRELIABLE_WITH_ACK : Nat := 5
def RELIABLE_WITH_ACK : Nat := 6
def RELIABLE_ORDERED_WITH_ACK : Nat := 7

/-- The repeated condition `r == RELIABLE || r == RELIABLE_ORDERED ||
r == RELIABLE_SEQUENCED || r == RELIABLE_WITH_ACK || r == RELIABLE_ORDERED_WITH_ACK`
used by `GetSize`, `Encode`, `DecodeDataPacket` and `AddToQueue`. -/
def reliableTier (r : Nat) : Bool :=
  r == 2 || r == 3 || r == 4 || r == 6 || r == 7

/-- The repeated condition `r == UNRELIABLE_SEQUENCED || r == RELIABLE_SEQUENCED`. -/
def sequencedTier (r : Nat) : Bool :=
  r == 1 || r == 4

/-- The repeated condition `r == RELIABLE_ORDERED || r == RELIABLE_ORDERED_WITH_ACK`. -/
def orderedTier (r : Nat) : Bool :=
  r == 3 || r == 7

/-- `EncapsulatedPacket` (package protocol). Field names follow the Go struct. -/
structure EncapsulatedPacket where
  Reliability : Nat
  MessageIndex : Nat
  OrderIndex : Nat
  OrderChannel : Nat
  Split : Bool
  SplitCount : Nat
  SplitID : Nat
  SplitIndex : Nat
  Payload : List Nat
deriving Repr, DecidableEq

/-- `DataPacket` (package protocol). -/
structure DataPacket where
  SequenceNumber : Nat
  Packets : List EncapsulatedPacket
deriving Repr, DecidableEq

/-- `RakNetPacket` as produced by `HandleDataPacket` (only the fields it
sets there: `PacketID` = first payload byte, `Payload` = the rest). -/
structure RakNetPacket where
  PacketID : Nat
  Payload : List Nat
deriving Repr, DecidableEq

/-- Header+payload of one encapsulated packet, as laid out by
`DataPacket.Encode`: flags byte `(Reliability << 5) | (0x10 if Split)`,
payload bit-length as u16 big-endian, then the conditional index fields,
split metadata, and the raw payload. -/
def encodeEncap (p : EncapsulatedPacket) : List Nat :=
  (p.Reliability * 32 % 256 + (if p.Split then 16 else 0)) ::
  writeUint16BE (p.Payload.length * 8 % 65536) ++
  (if reliableTier p.Reliability then writeUint24 p.MessageIndex else []) ++
  (if sequencedTier p.Reliability then writeUint24 p.OrderIndex else []) ++
  (if orderedTier p.Reliability then
    writeUint24 p.OrderIndex ++ [p.OrderChannel % 256] else []) ++
  (if p.Split then
    writeUint32BE p.SplitCount ++ writeUint16BE p.SplitID ++ writeUint32BE p.SplitIndex
   else []) ++
  p.Payload

/-- `DataPacket.Encode`: flag byte `0x80` (the literal the source writes,
commented "Data packet flag"), sequence number as u24 little-endian, then
the packed encapsulated packets. -/
def DataPacket.Encode (dp : DataPacket) : List Nat :=
  128 :: writeUint24 dp.SequenceNumber ++ dp.Packets.flatMap encodeEncap

/-- One iteration of the `DecodeDataPacket` loop after the flags byte and
the two bit-length bytes have been read: consumes the conditional header
fields and the payload, returning the packet and the remaining bytes, or
`none` when one of the `offset+n > len(data)` guards fires (`break`).
Fields the decoder does not read keep the Go zero value (`readUint24 [] = 0`).
The sequenced-tier 3 bytes are consumed but discarded (`offset += 3 // skip`). -/
def decodeOne (encFlags b1 b2 : Nat) (r0 : List Nat) :
    Option (EncapsulatedPacket × List Nat) :=
  match (if reliableTier (encFlags / 32 % 8) then takeN 3 r0 else some ([], r0)) with
  | none => none
  | some (mi, r1) =>
    match (if sequencedTier (encFlags / 32 % 8) then takeN 3 r1 else some ([], r1)) with
    | none => none
    | some (_, r2) =>
      match (if orderedTier (encFlags / 32 % 8) then takeN 4 r2 else some ([], r2)) with
      | none => none
      | some (oi, r3) =>
        match (if encFlags / 16 % 2 == 1 then takeN 10 r3 else some ([], r3)) with
        | none => none
        | some (sp, r4) =>
          match takeN ((b1 * 256 + b2 + 7) / 8) r4 with
          | none => none
          | some (payload, r5) =>
            some ({ Reliability := encFlags / 32 % 8,
                    MessageIndex := readUint24 mi,
                    OrderIndex := readUint24 oi,
                    OrderChannel := oi.getD 3 0,
                    Split := encFlags / 16 % 2 == 1,
                    SplitCount := readUint32BE sp,
                    SplitID := readUint16BE (sp.drop 4),
                    SplitIndex := readUint32BE (sp.drop 6),
                    Payload := payload }, r5)

/-- The `for offset < len(data)` loop of `DecodeDataPacket`, over the bytes
after the 4-byte datagram header. A firing bounds guard (`break`) ends the
loop, keeping the packets already extracted. The `offset+1 >= len(data)`
guard before the bit-length read corresponds to the `_ + 1, _` fallthrough.
The first argument is recursion fuel; `DecodeDataPacket` passes the byte
count, which bounds the iteration count (each iteration consumes at least
3 bytes), so the fuel never runs out before the Go loop ends. -/
def decodeLoop : Nat → List Nat → List EncapsulatedPacket
  | 0, _ => []
  | fuel + 1, encFlags :: b1 :: b2 :: rest2 =>
    match decodeOne encFlags b1 b2 rest2 with
    | none => []
    | some (p, rest3) => p :: decodeLoop fuel rest3
  | _ + 1, _ => []

/-- `DecodeDataPacket`: fails on fewer than 4 bytes or a clear bit 7,
otherwise reads the u24 little-endian sequence number and runs the
encapsulated-packet loop. -/
def DecodeDataPacket (data : List Nat) : Option DataPacket :=
  match data with
  | flags :: a :: b :: c :: rest =>
    if flags / 128 % 2 == 0 then none
    else some { SequenceNumber := a + b * 256 + c * 65536,
                Packets := decodeLoop rest.length rest }
  | _ => none

/-- `ACK` (package protocol). -/
structure ACK where
  Packets : List Nat
deriving Repr, DecidableEq

/-- `ACK.Encode` (package protocol): `0xC0`, record count as u16
little-endian, then each sequence as 3 bytes little-endian, no per-record
flag byte. -/
def ACK.Encode (ack : ACK) : List Nat :=
  192 :: ack.Packets.length % 65536 % 256 :: ack.Packets.length % 65536 / 256 ::
  ack.Packets.flatMap (fun seq => [seq % 256, seq / 256 % 256, seq / 65536 % 256])

/-- `NACK` (package protocol). -/
structure NACK where
  Packets : List Nat
deriving Repr, DecidableEq

/-- `NACK.Encode` (package protocol): `0xA0`, count u16 little-endian,
sequences as 3 bytes little-endian each. -/
def NACK.Encode (nack : NACK) : List Nat :=
  160 :: nack.Packets.length % 65536 % 256 :: nack.Packets.length % 65536 / 256 ::
  nack.Packets.flatMap (fun seq => [seq % 256, seq / 256 % 256, seq / 65536 % 256])

namespace PkgRaknet

/-- `EncodeACK` (package raknet, `pkg/raknet/protocol.go`): `0xC0`, count
u16 little-endian, then for each sequence a record-type byte `0x01`
followed by the sequence as u24 little-endian. -/
def EncodeACK (sequences : List Nat) : List Nat :=
  192 :: sequences.length % 65536 % 256 :: sequences.length % 65536 / 256 ::
  sequences.flatMap (fun seq => 1 :: writeUint24 seq)

end PkgRaknet

/-- `BitStream.WriteAddress`, IPv4 branch: version byte `4`, the four
octets each bitwise-inverted (`^b`), then the port low byte first
(little-endian, the SA-MP quirk). -/
def WriteAddress (o1 o2 o3 o4 port : Nat) : List Nat :=
  [4, Nat.xor o1 255, Nat.xor o2 255, Nat.xor o3 255, Nat.xor o4 255,
   port % 65536 % 256, port % 65536 / 256 % 256]

/-- `BitStream.ReadAddress`: version byte must be 4, four bytes are
re-inverted, then the port is read with `ReadUint16`, which is
**big-endian** (`binary.BigEndian.Uint16`). -/
def ReadAddress (l : List Nat) : Option ((Nat × Nat × Nat × Nat) × Nat) :=
  match l with
  | 4 :: b1 :: b2 :: b3 :: b4 :: p1 :: p2 :: _ =>
    some ((Nat.xor b1 255, Nat.xor b2 255, Nat.xor b3 255, Nat.xor b4 255),
          p1 * 256 + p2)
  | _ => none

/-! ## Association-list model of the Go maps -/

/-- Lookup in an association-list map (Go `m[k]` / `m[k], exists`). -/
def alLookup {α : Type} (k : Nat) (l : List (Nat × α)) : Option α :=
  (l.find? (fun kv => kv.1 == k)).map (fun kv => kv.2)

/-- Go `m[k] = v`: the new binding replaces any old one, so the list never
holds two bindings of one key and its length is the Go map `len`. -/
def alInsert {α : Type} (k : Nat) (v : α) (l : List (Nat × α)) : List (Nat × α) :=
  (k, v) :: l.filter (fun kv => !(kv.1 == k))

/-- Go `delete(m, k)`. -/
def alErase {α : Type} (k : Nat) (l : List (Nat × α)) : List (Nat × α) :=
  l.filter (fun kv => !(kv.1 == k))

/-! ## Session state (package protocol) -/

/-- The `Session` fields the reliability engine reads or writes.  The
per-channel order map has Go map-read semantics (absent keys read as 0),
so it is a total function; the other maps are association lists.  Network
addresses, timestamps, locks and the FSM booleans play no part in the
claims under verification and are omitted. -/
structure Session where
  MTU : Nat
  MessageIndex : Nat
  SequenceNumber : Nat
  /-- The deprecated session-wide outbound order counter that `AddToQueue`
  actually uses (`OrderIndex uint32 // DEPRECATED`). -/
  OrderIndex : Nat
  /-- `ChannelOrderIndex map[uint8]uint32`, the inbound expected order per
  channel. -/
  ChannelOrderIndex : Nat → Nat
  SplitID : Nat
  SendQueue : List EncapsulatedPacket
  RecoveryQueue : List (Nat × DataPacket)
  ACKQueue : List Nat
  NACKQueue : List Nat
  SplitPackets : List (Nat × List (Nat × EncapsulatedPacket))

/-- `NewSession`: zeroed counters, empty queues and maps. -/
def NewSession (mtu : Nat) : Session :=
  { MTU := mtu, MessageIndex := 0, SequenceNumber := 0, OrderIndex := 0,
    ChannelOrderIndex := fun _ => 0, SplitID := 0, SendQueue := [],
    RecoveryQueue := [], ACKQueue := [], NACKQueue := [], SplitPackets := [] }

/-- `Session.AddToQueue`: reliable tiers take and bump `MessageIndex`;
ordered tiers take and bump the **session-wide** `OrderIndex` (uint32,
hence modulo `2^32`); the stamped packet is appended to `SendQueue`. -/
def Session.AddToQueue (s : Session) (packet : EncapsulatedPacket) : Session :=
  let p1 := if reliableTier packet.Reliability then
      { packet with MessageIndex := s.MessageIndex } else packet
  let mi := if reliableTier packet.Reliability then
      (s.MessageIndex + 1) % 4294967296 else s.MessageIndex
  let p2 := if orderedTier packet.Reliability then
      { p1 with OrderIndex := s.OrderIndex } else p1
  let oi := if orderedTier packet.Reliability then
      (s.OrderIndex + 1) % 4294967296 else s.OrderIndex
  { s with MessageIndex := mi, OrderIndex := oi, SendQueue := s.SendQueue ++ [p2] }

/-- `Session.Update` (the 50 ms tick).  The ACK and NACK queues are
encoded, sent over the socket and cleared; then, when `SendQueue` is
non-empty, up to 120 packets are drained into one datagram stamped with
`SequenceNumber` (which is incremented, uint32), the datagram is encoded
and sent, and the `DataPacket` is stored in `RecoveryQueue`.  The socket
is external, so the function returns the flushed datagram, if any; the
loop condition `len(dp.Packets) < 120` never consults `MTU`. -/
def Session.Update (s : Session) : Session × Option DataPacket :=
  let s1 := { s with ACKQueue := ([] : List Nat) }
  let s2 := { s1 with NACKQueue := ([] : List Nat) }
  if s2.SendQueue = [] then (s2, none)
  else
    let dp : DataPacket := { SequenceNumber := s2.SequenceNumber,
                             Packets := s2.SendQueue.take 120 }
    ({ s2 with SequenceNumber := (s2.SequenceNumber + 1) % 4294967296,
               SendQueue := s2.SendQueue.drop 120,
               RecoveryQueue := alInsert dp.SequenceNumber dp s2.RecoveryQueue },
     some dp)

/-- Dedup insertion into `ACKQueue` (`s.ACKQueue[seq] = struct{}{}` on the
Go set-map). -/
def ackInsert (seq : Nat) (l : List Nat) : List Nat :=
  if l.contains seq then l else seq :: l

/-- In-order concatenation of a completed split group: the Go loop
`for i := 0; i < SplitCount; i++ { buffer.Write(m[i].Payload) }`.  A
missing index makes `m[i]` the nil pointer and `.Payload` a runtime
panic, modelled as `none`. -/
def concatFragments (inner : List (Nat × EncapsulatedPacket)) : Nat → Option (List Nat)
  | 0 => some []
  | n + 1 =>
    match concatFragments inner n, alLookup n inner with
    | some acc, some p => some (acc ++ p.Payload)
    | _, _ => none

/-- Split bookkeeping and delivery: the second half of the
`HandleDataPacket` loop body.  The `Bool` result records the nil-pointer
panic of the concatenation loop; the Go function never returns after it,
so the partial state at the panic point is what remains. -/
def processSplit (s : Session) (encap : EncapsulatedPacket) :
    Session × List RakNetPacket × Bool :=
  if encap.Split then
    let inner := alInsert encap.SplitIndex encap
      ((alLookup encap.SplitID s.SplitPackets).getD [])
    let s1 := { s with SplitPackets := alInsert encap.SplitID inner s.SplitPackets }
    if inner.length = encap.SplitCount then
      match concatFragments inner encap.SplitCount with
      | none => (s1, [], true)
      | some buf =>
        let s2 := { s1 with SplitPackets := alErase encap.SplitID s1.SplitPackets }
        match buf with
        | [] => (s2, [], false)
        | hd :: tl => (s2, [{ PacketID := hd, Payload := tl }], false)
    else (s1, [], false)
  else
    match encap.Payload with
    | [] => (s, [], false)
    | hd :: tl => (s, [{ PacketID := hd, Payload := tl }], false)

/-- One iteration of the `HandleDataPacket` loop: the reliable-ordered
state machine (duplicate skip on `<`, increment on `=`, warn-and-deliver
on `>`), then split handling or immediate delivery. -/
def processEncap (s : Session) (encap : EncapsulatedPacket) :
    Session × List RakNetPacket × Bool :=
  if encap.Reliability = RELIABLE_ORDERED ∨
     encap.Reliability = RELIABLE_ORDERED_WITH_ACK then
    if encap.OrderIndex < s.ChannelOrderIndex encap.OrderChannel then
      (s, [], false)
    else
      let s1 := if encap.OrderIndex = s.ChannelOrderIndex encap.OrderChannel then
          { s with ChannelOrderIndex := fun c =>
              if c = encap.OrderChannel then
                (s.ChannelOrderIndex encap.OrderChannel + 1) % 4294967296
              else s.ChannelOrderIndex c }
        else s
      processSplit s1 encap
  else processSplit s encap

/-- The `for _, encap := range dp.Packets` loop, folding `processEncap`
and collecting delivered packets; a panic aborts the loop. -/
def processList (s : Session) : List EncapsulatedPacket →
    Session × List RakNetPacket × Bool
  | [] => (s, [], false)
  | e :: rest =>
    match processEncap s e with
    | (s1, out, b) =>
      if b then (s1, out, true)
      else
        let r := processList s1 rest
        (r.1, out ++ r.2.1, r.2.2)

/-- `Session.HandleDataPacket`: record the sequence in `ACKQueue` only
when the datagram holds at least one encapsulated packet, then process
the packets. -/
def Session.HandleDataPacket (s : Session) (dp : DataPacket) :
    Session × List RakNetPacket × Bool :=
  let s0 := if dp.Packets ≠ [] then
      { s with ACKQueue := ackInsert dp.SequenceNumber s.ACKQueue } else s
  processList s0 dp.Packets

/-! ## ACK/NACK ingestion (`Session.HandleACK` / `Session.HandleNACK`)

Both handlers parse their byte argument with `BitStream` reads whose
errors are discarded (`v, _ := bs.Read…()`), the failed value being the
Go zero.  `ReadByte` consumes one byte when available; `ReadUint16` is an
atomic 2-byte big-endian read that consumes nothing on failure;
`ReadUint24` reads three single bytes, so a failure still consumes the
bytes before it. -/

/-- `BitStream.ReadByte` on the remaining bytes. -/
def readByteO : List Nat → Option Nat × List Nat
  | [] => (none, [])
  | b :: r => (some b, r)

/-- `BitStream.ReadUint16` (big-endian, atomic 2-byte read). -/
def readUint16O : List Nat → Option Nat × List Nat
  | b1 :: b2 :: r => (some (b1 * 256 + b2), b1 :: b2 :: r |>.drop 2)
  | l => (none, l)

/-- `BitStream.ReadUint24` (little-endian, three `ReadByte`s; on failure
the successfully read prefix stays consumed). -/
def readUint24O : List Nat → Option Nat × List Nat
  | b1 :: b2 :: b3 :: r => (some (b1 + b2 * 256 + b3 * 65536), r)
  | _ => (none, [])

/-- `v, _ := bs.ReadUint16()`: the Go zero value on error. -/
def readUint16OD (l : List Nat) : Nat × List Nat :=
  match readUint16O l with
  | (some v, r) => (v, r)
  | (none, r) => (0, r)

/-- `v, _ := bs.ReadUint24()`: the Go zero value on error. -/
def readUint24OD (l : List Nat) : Nat × List Nat :=
  match readUint24O l with
  | (some v, r) => (v, r)
  | (none, r) => (0, r)

/-- The Go range loop `for seq := start; seq <= end; seq++` (empty when
`start > end`; both bounds come from 24-bit reads, so no uint32 wrap). -/
def rangeL (start stop : Nat) : List Nat :=
  List.range' start (stop + 1 - start)

/-- Packets pushed back for one NACKed sequence: the body of
`if dp, exists := s.RecoveryQueue[seq]; exists { append every packet }`. -/
def resendOf (m : List (Nat × DataPacket)) (seq : Nat) : List EncapsulatedPacket :=
  match alLookup seq m with
  | some dp => dp.Packets
  | none => []

/-- The record loop of `HandleNACK`: for each of the `count` records, skip
the single/range flag byte, read `start` and `end`, and append the
recovery packets of every sequence in the range to the queue accumulator.
The recovery map is only read. -/
def nackLoop (m : List (Nat × DataPacket)) :
    Nat → List Nat → List EncapsulatedPacket → List EncapsulatedPacket
  | 0, _, q => q
  | n + 1, l, q =>
    let l1 := (readByteO l).2
    let sr := readUint24OD l1
    let er := readUint24OD sr.2
    nackLoop m n er.2
      ((rangeL sr.1 er.1).foldl (fun q seq => q ++ resendOf m seq) q)

/-- `Session.HandleNACK`: skip the flag byte, read the record count, run
the record loop over `SendQueue`. -/
def Session.HandleNACK (s : Session) (data : List Nat) : Session :=
  let l0 := (readByteO data).2
  let cr := readUint16OD l0
  { s with SendQueue := nackLoop s.RecoveryQueue cr.1 cr.2 s.SendQueue }

/-- The record loop of `HandleACK`: for each record, skip the flag byte,
read `start` and `end`, and `delete(s.RecoveryQueue, seq)` for every
sequence in the range. -/
def ackLoop : Nat → List Nat → List (Nat × DataPacket) → List (Nat × DataPacket)
  | 0, _, m => m
  | n + 1, l, m =>
    let l1 := (readByteO l).2
    let sr := readUint24OD l1
    let er := readUint24OD sr.2
    ackLoop n er.2 ((rangeL sr.1 er.1).foldl (fun m seq => alErase seq m) m)

/-- `Session.HandleACK`: skip the flag byte, read the record count, run
the deletion loop on `RecoveryQueue`. -/
def Session.HandleACK (s : Session) (data : List Nat) : Session :=
  let l0 := (readByteO data).2
  let cr := readUint16OD l0
  { s with RecoveryQueue := ackLoop cr.1 cr.2 s.RecoveryQueue }

/-! ## Derived forms used to state the claims -/

/-- The `(start, end)` pairs the ACK/NACK record loop reads from the byte
stream (independent of any session state). -/
def parseRecords : Nat → List Nat → List (Nat × Nat)
  | 0, _ => []
  | n + 1, l =>
    let l1 := (readByteO l).2
    let sr := readUint24OD l1
    let er := readUint24OD sr.2
    (sr.1, er.1) :: parseRecords n er.2

/-- All sequence numbers covered by an ACK/NACK packet's records. -/
def coveredSeqs (data : List Nat) : List Nat :=
  let l0 := (readByteO data).2
  let cr := readUint16OD l0
  (parseRecords cr.1 cr.2).flatMap (fun r => rangeL r.1 r.2)

/-- The immediate-delivery branch of `HandleDataPacket` for a non-split
packet: one `RakNetPacket` headed by the first payload byte, nothing for
an empty payload. -/
def deliverOut (e : EncapsulatedPacket) : List RakNetPacket :=
  match e.Payload with
  | [] => []
  | hd :: tl => [{ PacketID := hd, Payload := tl }]

/-- A packet whose fields are within the widths its wire layout encodes,
with the Go zero value in every field its reliability tier does not put
on the wire — including, as the decoder forces, a zero order index for
the sequenced tiers, whose 3 on-wire bytes the decoder skips without
storing. -/
def canonicalEncap (p : EncapsulatedPacket) : Bool :=
  decide (p.Reliability < 8) &&
  decide (p.Payload.length * 8 < 65536) &&
  (if reliableTier p.Reliability then decide (p.MessageIndex < 16777216)
   else p.MessageIndex == 0) &&
  (if orderedTier p.Reliability then
    decide (p.OrderIndex < 16777216) && decide (p.OrderChannel < 256)
   else p.OrderIndex == 0 && p.OrderChannel == 0) &&
  (if p.Split then
    decide (p.SplitCount < 4294967296) && decide (p.SplitID < 65536) &&
    decide (p.SplitIndex < 4294967296)
   else p.SplitCount == 0 && p.SplitID == 0 && p.SplitIndex == 0)

/-- A datagram whose sequence number fits 24 bits and whose packets are
all canonical. -/
def canonicalDataPacket (dp : DataPacket) : Bool :=
  decide (dp.SequenceNumber < 16777216) && dp.Packets.all canonicalEncap

/-! ## Concrete inputs used by witnesses and counterexamples -/

/-- An all-zero unreliable packet, as a base for concrete instances. -/
def zeroEncap : EncapsulatedPacket :=
  { Reliability := 0, MessageIndex := 0, OrderIndex := 0, OrderChannel := 0,
    Split := false, SplitCount := 0, SplitID := 0, SplitIndex := 0, Payload := [] }

/-- The seed datagram of the spec: `send_seq = 100`, one Reliable packet
with `msg_index = 50` and payload `AA BB CC`. -/
def dpSeed : DataPacket :=
  { SequenceNumber := 100,
    Packets := [{ zeroEncap with
                  Reliability := 2, MessageIndex := 50,
                  Payload := [170, 187, 204] }] }

/-- An UnreliableSequenced packet with order index 1: its order index is
written to the wire but discarded on decode. -/
def dpSeqLoss : DataPacket :=
  { SequenceNumber := 0,
    Packets := [{ zeroEncap with Reliability := 1, OrderIndex := 1 }] }

/-- `dpSeqLoss` after one encode/decode round trip: the order index has
collapsed to 0. -/
def dpSeqLossRT : DataPacket :=
  { SequenceNumber := 0, Packets := [{ zeroEncap with Reliability := 1 }] }

/-- A session mid-stream on inbound channel 2: the next expected order
index there is 5. -/
def sChan2 : Session :=
  { NewSession 576 with ChannelOrderIndex := fun c => if c = 2 then 5 else 0 }

/-- ReliableOrdered packet on channel 2 with order index 4 (< expected 5). -/
def pOrdLt : EncapsulatedPacket :=
  { zeroEncap with
    Reliability := 3, OrderIndex := 4, OrderChannel := 2,
    Payload := [171, 1] }

/-- ReliableOrdered packet on channel 2 with order index 5 (= expected). -/
def pOrdEq : EncapsulatedPacket := { pOrdLt with OrderIndex := 5 }

/-- ReliableOrdered packet on channel 2 with order index 6 (> expected). -/
def pOrdGt : EncapsulatedPacket := { pOrdLt with OrderIndex := 6 }

/-- First ReliableOrdered enqueue of a fresh session, on channel 0. -/
def pChan0 : EncapsulatedPacket := { zeroEncap with Reliability := 3, OrderChannel := 0 }

/-- First ReliableOrdered enqueue on channel 1. -/
def pChan1 : EncapsulatedPacket := { zeroEncap with Reliability := 3, OrderChannel := 1 }

/-- A 600-byte unreliable payload: two of these cannot share one datagram
within an MTU of 576. -/
def pBig : EncapsulatedPacket := { zeroEncap with Payload := List.replicate 600 170 }

/-- An MTU-576 session whose send queue holds two 600-byte packets. -/
def sBigQueue : Session := { NewSession 576 with SendQueue := [pBig, pBig] }

/-- A split fragment whose `SplitIndex` (1) lies outside
`0 … SplitCount-1` (`SplitCount = 1`): storing it completes the group's
cardinality check while index 0 is absent. -/
def pBadSplit : EncapsulatedPacket :=
  { zeroEncap with
    Split := true, SplitCount := 1, SplitID := 7, SplitIndex := 1,
    Payload := [170] }

/-- A datagram carrying only the out-of-range split fragment. -/
def dpBadSplit : DataPacket := { SequenceNumber := 0, Packets := [pBadSplit] }

/-! ## Theorems -/

theorem flat3_length (l : List Nat) :
    (l.flatMap (fun seq => [seq % 256, seq / 256 % 256, seq / 65536 % 256])).length =
      3 * l.length := by
  induction l with
  | nil => rfl
  | cons x xs ih =>
    simp only [List.flatMap_cons, List.length_append, ih, List.length_cons,
      List.length_nil]
    ring

theorem writeUint24_length (v : Nat) : (writeUint24 v).length = 3 := rfl

theorem flat4_length (l : List Nat) :
    (l.flatMap (fun seq => 1 :: writeUint24 seq)).length = 4 * l.length := by
  induction l with
  | nil => rfl
  | cons x xs ih =>
    simp only [List.flatMap_cons, List.length_append, ih, List.length_cons,
      writeUint24_length]
    ring

/-- C2 (code_bug evidence): encoding `192.168.1.100:7777` produces the
spec's bytes `04 3F 57 FE 9B 61 1E` (version 4, inverted octets, port
little-endian), but decoding them returns port `24862 = 0x611E` — the
little-endian port read back big-endian — not `7777`, contradicting the
claim and the repository's own `TestAddressWriteRead`. -/
theorem ReadAddress_WriteAddress_port_swapped :
    WriteAddress 192 168 1 100 7777 = [4, 63, 87, 254, 155, 97, 30] ∧
    ReadAddress (WriteAddress 192 168 1 100 7777) =
      some ((192, 168, 1, 100), 24862) ∧ (24862 : Nat) ≠ 7777 := by
  refine ⟨by decide, by decide, by decide⟩

/-- C3 (amended): `protocol.ACK.Encode` emits exactly the claimed bytes —
`C0`, u16-little-endian count, 3 little-endian bytes per sequence with
no per-record flag byte (6 bytes for a singleton, 3 for the empty set) —
while `raknet.EncodeACK` additionally emits a `0x01` record-type byte
before each sequence (4 bytes per record). -/
theorem ACK_Encode_format (s : Nat) (l : List Nat) :
    ACK.Encode { Packets := [s] } =
      [192, 1, 0, s % 256, s / 256 % 256, s / 65536 % 256] ∧
    ACK.Encode { Packets := ([] : List Nat) } = [192, 0, 0] ∧
    (ACK.Encode { Packets := l }).length = 3 + 3 * l.length ∧
    PkgRaknet.EncodeACK [s] =
      [192, 1, 0, 1, s % 256, s / 256 % 256, s / 65536 % 256] ∧
    (PkgRaknet.EncodeACK l).length = 3 + 4 * l.length := by
  refine ⟨by simp [ACK.Encode], by decide, ?_, by simp [PkgRaknet.EncodeACK, writeUint24], ?_⟩
  · simp only [ACK.Encode, List.length_cons, flat3_length]
    ring
  · simp only [PkgRaknet.EncodeACK, List.length_cons, flat4_length]
    ring

/-- C3 (counterexample to the claim as stated): the second ACK encoder in
the repository, `raknet.EncodeACK`, encodes the singleton `[0x123456]`
into 7 bytes with a per-record flag byte, not the claimed 6-byte
`C0 01 00 56 34 12`. -/
theorem EncodeACK_pkg_has_record_flag :
    PkgRaknet.EncodeACK [1193046] = [192, 1, 0, 1, 86, 52, 18] ∧
    (PkgRaknet.EncodeACK [1193046]).length ≠ 6 ∧
    PkgRaknet.EncodeACK [1193046] ≠ [192, 1, 0, 86, 52, 18] := by
  refine ⟨by decide, by decide, by decide⟩

/-- C4 (amended): every encoded datagram starts with the flag byte 0x80
(bit 7 set, so within `0x80…0x8F`), which is the literal
`DataPacket.Encode` writes. -/
theorem DataPacket_Encode_first_byte (dp : DataPacket) :
    (DataPacket.Encode dp).head? = some 128 := rfl

/-- C4 (counterexample to the claim as stated): the encoder's first byte
is 0x80, not the claimed 0x84. -/
theorem DataPacket_Encode_not_0x84 :
    DataPacket.Encode { SequenceNumber := 0, Packets := [] } = [128, 0, 0, 0] ∧
    (DataPacket.Encode { SequenceNumber := 0, Packets := [] }).head? ≠ some 132 := by
  refine ⟨by decide, by decide⟩

/-- C10 (code_bug evidence): ingesting a single split fragment with
`split_count = 1` but `split_index = 1` makes the stored-fragment count
reach `split_count` while index 0 is absent; the concatenation loop then
dereferences the nil `SplitPackets[7][0]` — the model's panic flag. -/
theorem HandleDataPacket_nil_deref_on_bad_split_index :
    (Session.HandleDataPacket (NewSession 576) dpBadSplit).2.2 = true := by
  decide

/-- C1 (counterexample to the claim as stated): a datagram holding one
UnreliableSequenced packet with order index 1 does not survive the round
trip — the decoder skips the sequenced order-index bytes, so the decoded
datagram carries order index 0. -/
theorem roundtrip_drops_sequenced_order_index :
    DecodeDataPacket (DataPacket.Encode dpSeqLoss) = some dpSeqLossRT ∧
    some dpSeqLossRT ≠ some dpSeqLoss := by
  refine ⟨by decide, by decide⟩

/-- C7 (counterexample to the claim as stated): on a fresh session, the
first ReliableOrdered enqueue on channel 0 and then the first on channel
1 receive order indices 0 and 1 — a single session-wide counter — where
per-channel independent counters would give both packets index 0. -/
theorem AddToQueue_shared_counter :
    (((NewSession 576).AddToQueue pChan0).AddToQueue pChan1).SendQueue.map
        (fun q => q.OrderIndex) = [0, 1] ∧
    ¬ ((((NewSession 576).AddToQueue pChan0).AddToQueue pChan1).SendQueue.map
        (fun q => q.OrderIndex) = [0, 0]) := by
  refine ⟨by decide, by decide⟩

theorem processSplit_ACKQueue (s : Session) (e : EncapsulatedPacket) :
    (processSplit s e).1.ACKQueue = s.ACKQueue := by
  simp only [processSplit]
  repeat' split
  all_goals rfl

theorem processEncap_ACKQueue (s : Session) (e : EncapsulatedPacket) :
    (processEncap s e).1.ACKQueue = s.ACKQueue := by
  simp only [processEncap]
  repeat' split
  all_goals first
    | rfl
    | rw [processSplit_ACKQueue]

theorem processList_ACKQueue (l : List EncapsulatedPacket) :
    ∀ s : Session, (processList s l).1.ACKQueue = s.ACKQueue := by
  induction l with
  | nil => intro s; rfl
  | cons e rest ih =>
    intro s
    simp only [processList]
    have hA := processEncap_ACKQueue s e
    cases hpe : processEncap s e with
    | mk s1 ob =>
      obtain ⟨out, b⟩ := ob
      rw [hpe] at hA
      cases b
      · simpa [ih s1] using hA
      · simpa using hA

/-- C5: ingesting a datagram adds its sequence number to the ACK set
(with set semantics) exactly when the datagram carries at least one
encapsulated packet; an empty datagram leaves the ACK set unchanged. -/
theorem HandleDataPacket_ack_iff_nonempty (s : Session) (dp : DataPacket) :
    (s.HandleDataPacket dp).1.ACKQueue =
      if dp.Packets = [] then s.ACKQueue
      else ackInsert dp.SequenceNumber s.ACKQueue := by
  unfold Session.HandleDataPacket
  rw [processList_ACKQueue]
  by_cases h : dp.Packets = [] <;> simp [h]

/-- C7 (amended): `AddToQueue` stamps a reliable-ordered packet with the
session-wide counter `OrderIndex` — one counter shared by all channels,
not a per-channel one — then increments it (uint32); for non-ordered
tiers the counter is untouched, and, short of the uint32 wrap, it never
decreases. -/
theorem AddToQueue_order_counter (s : Session) (p : EncapsulatedPacket) :
    (orderedTier p.Reliability = true →
      (s.AddToQueue p).OrderIndex = (s.OrderIndex + 1) % 4294967296 ∧
      ((s.AddToQueue p).SendQueue.map (fun q => q.OrderIndex)).getLast? =
        some s.OrderIndex) ∧
    (orderedTier p.Reliability = false →
      (s.AddToQueue p).OrderIndex = s.OrderIndex) ∧
    (s.OrderIndex + 1 < 4294967296 →
      s.OrderIndex ≤ (s.AddToQueue p).OrderIndex) := by
  refine ⟨fun ho => ?_, fun ho => ?_, fun hb => ?_⟩
  · cases hr : reliableTier p.Reliability <;>
      simp [Session.AddToQueue, hr, ho, List.getLast?_concat]
  · cases hr : reliableTier p.Reliability <;>
      simp [Session.AddToQueue, hr, ho]
  · cases hr : reliableTier p.Reliability <;>
      cases ho : orderedTier p.Reliability <;>
      simp [Session.AddToQueue, hr, ho, Nat.mod_eq_of_lt hb]

/-- Witness for C7's amended theorem at a fresh session and the first
ReliableOrdered enqueue. -/
theorem AddToQueue_order_counter_witness :
    (((NewSession 576).AddToQueue pChan0).OrderIndex =
        ((NewSession 576).OrderIndex + 1) % 4294967296 ∧
      ((((NewSession 576).AddToQueue pChan0).SendQueue.map
        (fun q => q.OrderIndex)).getLast?) = some (NewSession 576).OrderIndex) ∧
    (NewSession 576).OrderIndex ≤ ((NewSession 576).AddToQueue pChan0).OrderIndex :=
  ⟨(AddToQueue_order_counter (NewSession 576) pChan0).1 (by decide),
   (AddToQueue_order_counter (NewSession 576) pChan0).2.2 (by decide)⟩

/-- C8 (amended): with a non-empty send queue, the tick drains the first
(at most) 120 queued packets — the MTU is never consulted — into one
datagram stamped with the pre-increment `SequenceNumber`; the datagram is
stored in `RecoveryQueue` under that sequence (after the socket send, and
as the packet structure, re-encoded on resend), the ACK/NACK queues are
flushed, and the sequence counter advances by one (uint32). -/
theorem Update_drains_queue (s : Session) (h : s.SendQueue ≠ []) :
    Session.Update s =
      ({ s with ACKQueue := [], NACKQueue := [],
                SequenceNumber := (s.SequenceNumber + 1) % 4294967296,
                SendQueue := s.SendQueue.drop 120,
                RecoveryQueue := alInsert s.SequenceNumber
                  { SequenceNumber := s.SequenceNumber,
                    Packets := s.SendQueue.take 120 } s.RecoveryQueue },
       some { SequenceNumber := s.SequenceNumber,
              Packets := s.SendQueue.take 120 }) ∧
    (s.SendQueue.take 120).length ≤ 120 := by
  constructor
  · simp only [Session.Update]
    rw [if_neg h]
  · rw [List.length_take]
    exact Nat.min_le_left _ _

/-- Witness for C8's amended theorem at the two-packet queue. -/
theorem Update_drains_queue_witness :
    Session.Update sBigQueue =
      ({ sBigQueue with
          ACKQueue := [], NACKQueue := [],
          SequenceNumber := (sBigQueue.SequenceNumber + 1) % 4294967296,
          SendQueue := sBigQueue.SendQueue.drop 120,
          RecoveryQueue := alInsert sBigQueue.SequenceNumber
            { SequenceNumber := sBigQueue.SequenceNumber,
              Packets := sBigQueue.SendQueue.take 120 } sBigQueue.RecoveryQueue },
       some { SequenceNumber := sBigQueue.SequenceNumber,
              Packets := sBigQueue.SendQueue.take 120 }) ∧
    (sBigQueue.SendQueue.take 120).length ≤ 120 :=
  Update_drains_queue sBigQueue (by simp [sBigQueue])

theorem processSplit_no_split (s : Session) (e : EncapsulatedPacket)
    (hns : e.Split = false) : processSplit s e = (s, deliverOut e, false) := by
  simp only [processSplit, hns, Bool.false_eq_true, if_false, deliverOut]
  cases e.Payload <;> rfl

/-- C6: for an inbound ReliableOrdered (or ReliableOrderedWithAck)
non-split packet on channel `c`: an order index below the expected one is
discarded with no state change; an index equal to it is delivered and the
expected index for `c` alone is incremented (uint32); an index above it
is still delivered with the expected index left unchanged. -/
theorem processEncap_ordered_cases (s : Session) (e : EncapsulatedPacket)
    (hrel : e.Reliability = RELIABLE_ORDERED ∨
            e.Reliability = RELIABLE_ORDERED_WITH_ACK)
    (hns : e.Split = false) :
    (e.OrderIndex < s.ChannelOrderIndex e.OrderChannel →
      processEncap s e = (s, [], false)) ∧
    (e.OrderIndex = s.ChannelOrderIndex e.OrderChannel →
      processEncap s e =
        ({ s with ChannelOrderIndex := fun c =>
            if c = e.OrderChannel then
              (s.ChannelOrderIndex e.OrderChannel + 1) % 4294967296
            else s.ChannelOrderIndex c }, deliverOut e, false)) ∧
    (s.ChannelOrderIndex e.OrderChannel < e.OrderIndex →
      processEncap s e = (s, deliverOut e, false)) := by
  refine ⟨fun hlt => ?_, fun heq => ?_, fun hgt => ?_⟩
  · simp only [processEncap, if_pos hrel, if_pos hlt]
  · simp only [processEncap, if_pos hrel, if_neg (by omega : ¬ e.OrderIndex <
      s.ChannelOrderIndex e.OrderChannel), if_pos heq]
    exact processSplit_no_split _ _ hns
  · simp only [processEncap, if_pos hrel, if_neg (by omega : ¬ e.OrderIndex <
      s.ChannelOrderIndex e.OrderChannel), if_neg (by omega : ¬ e.OrderIndex =
      s.ChannelOrderIndex e.OrderChannel)]
    exact processSplit_no_split _ _ hns

/-- Witness for C6 at expected order index 5 on channel 2 with inbound
order indices 4 (below), 5 (equal) and 6 (above). -/
theorem processEncap_ordered_cases_witness :
    processEncap sChan2 pOrdLt = (sChan2, [], false) ∧
    processEncap sChan2 pOrdEq =
      ({ sChan2 with ChannelOrderIndex := fun c =>
          if c = pOrdEq.OrderChannel then
            (sChan2.ChannelOrderIndex pOrdEq.OrderChannel + 1) % 4294967296
          else sChan2.ChannelOrderIndex c }, deliverOut pOrdEq, false) ∧
    processEncap sChan2 pOrdGt = (sChan2, deliverOut pOrdGt, false) :=
  ⟨(processEncap_ordered_cases sChan2 pOrdLt (Or.inl (by decide)) (by decide)).1
      (by decide),
   (processEncap_ordered_cases sChan2 pOrdEq (Or.inl (by decide)) (by decide)).2.1
      (by decide),
   (processEncap_ordered_cases sChan2 pOrdGt (Or.inl (by decide)) (by decide)).2.2
      (by decide)⟩

theorem foldl_append_flatMap {α : Type} (f : Nat → List α) :
    ∀ (xs : List Nat) (q : List α),
      xs.foldl (fun acc x => acc ++ f x) q = q ++ xs.flatMap f := by
  intro xs
  induction xs with
  | nil => intro q; simp
  | cons x xs ih => intro q; simp [List.flatMap_cons, ih, List.append_assoc]

theorem nackLoop_spec (m : List (Nat × DataPacket)) :
    ∀ (n : Nat) (l : List Nat) (q : List EncapsulatedPacket),
      nackLoop m n l q =
        q ++ (parseRecords n l).flatMap
          (fun r => (rangeL r.1 r.2).flatMap (resendOf m)) := by
  intro n
  induction n with
  | zero => intro l q; simp [nackLoop, parseRecords]
  | succ n ih =>
    intro l q
    simp only [nackLoop, parseRecords, List.flatMap_cons]
    rw [ih, foldl_append_flatMap, List.append_assoc]

theorem foldl_erase_filter {α : Type} :
    ∀ (xs : List Nat) (m : List (Nat × α)),
      xs.foldl (fun acc k => alErase k acc) m =
        m.filter (fun kv => !(xs.contains kv.1)) := by
  intro xs
  induction xs with
  | nil => intro m; simp [List.filter_true]
  | cons x xs ih =>
    intro m
    simp only [List.foldl_cons]
    rw [ih, alErase, List.filter_filter]
    refine List.filter_congr (fun a _ => ?_)
    simp [List.contains_cons, Bool.not_or, Bool.and_comm, Bool.beq_eq_decide_eq]

theorem ackLoop_filter :
    ∀ (n : Nat) (l : List Nat) (m : List (Nat × DataPacket)),
      ackLoop n l m =
        m.filter (fun kv =>
          !(((parseRecords n l).flatMap (fun r => rangeL r.1 r.2)).contains kv.1)) := by
  intro n
  induction n with
  | zero => intro l m; simp [ackLoop, parseRecords, List.filter_true]
  | succ n ih =>
    intro l m
    simp only [ackLoop, parseRecords, List.flatMap_cons]
    rw [ih, foldl_erase_filter, List.filter_filter]
    refine List.filter_congr (fun a _ => ?_)
    by_cases h1 : a.1 ∈ rangeL (readUint24OD (readByteO l).2).1
        (readUint24OD (readUint24OD (readByteO l).2).2).1 <;>
      by_cases h2 : a.1 ∈ (parseRecords n
          (readUint24OD (readUint24OD (readByteO l).2).2).2).flatMap
          (fun r => rangeL r.1 r.2) <;>
      simp [h1, h2, List.mem_append]

theorem flatMap_flatMap_assoc {α : Type} (g : Nat × Nat → List Nat)
    (f : Nat → List α) :
    ∀ xs : List (Nat × Nat),
      (xs.flatMap g).flatMap f = xs.flatMap (fun r => (g r).flatMap f) := by
  intro xs
  induction xs with
  | nil => rfl
  | cons x xs ih => simp [List.flatMap_cons, List.flatMap_append, ih]

/-- C9: NACK ingestion appends to the send queue exactly the packets of
the recovery entries its records name (in record order), leaving the
recovery map — the named entry included — and every counter untouched;
only ACK ingestion removes recovery entries, exactly those its records
cover, and handling the same ACK bytes twice equals handling them once. -/
theorem HandleNACK_HandleACK_spec (data : List Nat) (s : Session) :
    (s.HandleNACK data =
      { s with
        SendQueue := s.SendQueue ++
          (coveredSeqs data).flatMap (resendOf s.RecoveryQueue) }) ∧
    (s.HandleACK data =
      { s with
        RecoveryQueue := s.RecoveryQueue.filter
          (fun kv => !((coveredSeqs data).contains kv.1)) }) ∧
    ((s.HandleACK data).HandleACK data = s.HandleACK data) := by
  have hack : ∀ t : Session, t.HandleACK data =
      { t with
        RecoveryQueue := t.RecoveryQueue.filter
          (fun kv => !((coveredSeqs data).contains kv.1)) } := by
    intro t
    simp only [Session.HandleACK, coveredSeqs]
    rw [ackLoop_filter]
  refine ⟨?_, hack s, ?_⟩
  · simp only [Session.HandleNACK, coveredSeqs]
    rw [nackLoop_spec, flatMap_flatMap_assoc]
  · rw [hack (s.HandleACK data), hack s]
    congr 1
    rw [List.filter_filter]
    exact List.filter_congr (fun a _ => by rw [Bool.and_self])

theorem takeN_exact (t r : List Nat) (n : Nat) (h : t.length = n) :
    takeN n (t ++ r) = some (t, r) := by
  unfold takeN
  rw [if_pos (by rw [List.length_append]; omega), List.take_left' h,
    List.drop_left' h]

theorem takeN_len (t r : List Nat) : takeN t.length (t ++ r) = some (t, r) :=
  takeN_exact t r t.length rfl

theorem takeN_opt (c : Bool) (k : Nat) (w : List Nat) (hw : w.length = k)
    (r : List Nat) :
    (if c then takeN k ((if c then w else []) ++ r)
     else some (([] : List Nat), (if c then w else []) ++ r)) =
      some ((if c then w else []), r) := by
  cases c
  · simp
  · simpa using takeN_exact w r k hw

theorem readUint24_write (v : Nat) :
    readUint24 (writeUint24 v) = v % 16777216 := by
  simp only [writeUint24, readUint24]
  omega

theorem readUint24_write_append (v : Nat) (t : List Nat) :
    readUint24 (writeUint24 v ++ t) = v % 16777216 := by
  simp only [writeUint24, List.cons_append, List.nil_append, readUint24]
  omega

theorem readUint16BE_write_append (v : Nat) (t : List Nat) :
    readUint16BE (writeUint16BE v ++ t) = v % 65536 := by
  simp only [writeUint16BE, List.cons_append, List.nil_append, readUint16BE]
  omega

theorem readUint32BE_write_append (v : Nat) (t : List Nat) :
    readUint32BE (writeUint32BE v ++ t) = v % 4294967296 := by
  simp only [writeUint32BE, List.cons_append, List.nil_append, readUint32BE]
  omega

theorem decodeOne_encap (rel mi oi oc : Nat) (sp : Bool) (sc sid si : Nat)
    (pl rest : List Nat)
    (h : canonicalEncap ⟨rel, mi, oi, oc, sp, sc, sid, si, pl⟩ = true) :
    decodeOne (rel * 32 % 256 + (if sp then 16 else 0))
      (pl.length * 8 % 65536 / 256 % 256) (pl.length * 8 % 65536 % 256)
      ((if reliableTier rel then writeUint24 mi else []) ++
       ((if sequencedTier rel then writeUint24 oi else []) ++
        ((if orderedTier rel then writeUint24 oi ++ [oc % 256] else []) ++
         ((if sp then
             writeUint32BE sc ++ (writeUint16BE sid ++ writeUint32BE si)
           else []) ++
          (pl ++ rest))))) =
      some (⟨rel, mi, oi, oc, sp, sc, sid, si, pl⟩, rest) := by
  simp only [canonicalEncap, Bool.and_eq_true, decide_eq_true_eq] at h
  obtain ⟨⟨⟨⟨h8, hlen⟩, hmi⟩, hoi⟩, hsp⟩ := h
  have hrelf : (rel * 32 % 256 + (if sp then 16 else 0)) / 32 % 8 = rel := by
    cases sp <;> simp <;> omega
  have hbit : ((rel * 32 % 256 + (if sp then 16 else 0)) / 16 % 2 == 1) = sp := by
    cases sp <;> simp <;> omega
  have hplen : (pl.length * 8 % 65536 / 256 % 256 * 256 +
      pl.length * 8 % 65536 % 256 + 7) / 8 = pl.length := by omega
  have hmi' : readUint24 (if reliableTier rel then writeUint24 mi else []) = mi := by
    cases hc : reliableTier rel <;> rw [hc] at hmi <;> simp at hmi
    · simp [readUint24, hmi]
    · simp [readUint24_write]
      omega
  have hoi' : readUint24
      (if orderedTier rel then writeUint24 oi ++ [oc % 256] else []) = oi := by
    cases hc : orderedTier rel <;> rw [hc] at hoi <;> simp at hoi
    · simp [readUint24, hoi.1]
    · simp [readUint24_write_append]
      omega
  have hoc' : (if orderedTier rel then writeUint24 oi ++ [oc % 256] else
      ([] : List Nat)).getD 3 0 = oc := by
    cases hc : orderedTier rel <;> rw [hc] at hoi <;> simp at hoi
    · simp [hoi.2]
    · simp [writeUint24]
      omega
  have hsc' : readUint32BE (if sp then
      writeUint32BE sc ++ (writeUint16BE sid ++ writeUint32BE si)
    else []) = sc := by
    cases sp <;> simp at hsp
    · simp [readUint32BE, hsp.1.1]
    · simp [readUint32BE_write_append]
      omega
  have hsid' : readUint16BE ((if sp then
      writeUint32BE sc ++ (writeUint16BE sid ++ writeUint32BE si)
    else ([] : List Nat)).drop 4) = sid := by
    cases sp <;> simp at hsp
    · simp [readUint16BE, hsp.1.2]
    · simp [writeUint32BE, readUint16BE_write_append]
      omega
  have hsi' : readUint32BE ((if sp then
      writeUint32BE sc ++ (writeUint16BE sid ++ writeUint32BE si)
    else ([] : List Nat)).drop 6) = si := by
    cases sp <;> simp at hsp
    · simp [readUint32BE, hsp.2]
    · simp [writeUint32BE, writeUint16BE, readUint32BE]
      omega
  simp only [decodeOne, hrelf, hbit, hplen,
    takeN_opt (reliableTier rel) 3 (writeUint24 mi) rfl,
    takeN_opt (sequencedTier rel) 3 (writeUint24 oi) rfl,
    takeN_opt (orderedTier rel) 4 (writeUint24 oi ++ [oc % 256]) rfl,
    takeN_opt sp 10
      (writeUint32BE sc ++ (writeUint16BE sid ++ writeUint32BE si)) rfl,
    takeN_len, hmi', hoi', hoc', hsc', hsid', hsi']

theorem decodeLoop_encap_step (fuel : Nat) (p : EncapsulatedPacket)
    (rest : List Nat) (h : canonicalEncap p = true) :
    decodeLoop (fuel + 1) (encodeEncap p ++ rest) = p :: decodeLoop fuel rest := by
  obtain ⟨rel, mi, oi, oc, sp, sc, sid, si, pl⟩ := p
  have hd := decodeOne_encap rel mi oi oc sp sc sid si pl rest h
  simp only [encodeEncap, writeUint16BE, List.cons_append, List.nil_append,
    List.append_assoc] at hd ⊢
  simp only [decodeLoop, hd]

theorem encodeEncap_length_ge (p : EncapsulatedPacket) :
    3 ≤ (encodeEncap p).length := by
  simp [encodeEncap, writeUint16BE]

theorem decodeLoop_flatMap : ∀ (packets : List EncapsulatedPacket) (fuel : Nat),
    packets.all canonicalEncap = true →
    (packets.flatMap encodeEncap).length ≤ fuel →
    decodeLoop fuel (packets.flatMap encodeEncap) = packets := by
  intro packets
  induction packets with
  | nil => intro fuel _ _; cases fuel <;> rfl
  | cons p ps ih =>
    intro fuel hall hfuel
    simp only [List.all_cons, Bool.and_eq_true] at hall
    obtain ⟨hp, hps⟩ := hall
    simp only [List.flatMap_cons] at hfuel ⊢
    have h3 : 3 ≤ (encodeEncap p).length := encodeEncap_length_ge p
    rw [List.length_append] at hfuel
    cases fuel with
    | zero => omega
    | succ f =>
      rw [decodeLoop_encap_step f p _ hp, ih f hps (by omega)]

/-- C1 (amended): for every canonical datagram — each field within the
width its tier puts on the wire, the Go zero in every field the tier does
not encode, payload under 8192 bytes, and (as the counterexample forces)
a zero order index on the sequenced tiers, which the decoder discards —
decoding the encoding returns the datagram exactly: sequence number and,
per packet, reliability, message index, order index, order channel, split
metadata and payload. -/
theorem DecodeDataPacket_Encode_roundtrip (dp : DataPacket)
    (h : canonicalDataPacket dp = true) :
    DecodeDataPacket (DataPacket.Encode dp) = some dp := by
  obtain ⟨seq, packets⟩ := dp
  simp only [canonicalDataPacket, Bool.and_eq_true, decide_eq_true_eq] at h
  obtain ⟨hseq, hall⟩ := h
  simp only [DataPacket.Encode, writeUint24, List.cons_append, List.nil_append,
    DecodeDataPacket]
  rw [decodeLoop_flatMap packets _ hall (Nat.le_refl _)]
  norm_num
  omega

/-- Witness for C1's amended theorem at the spec's seed datagram
(`send_seq = 100`, one Reliable packet, `msg_index = 50`,
payload `AA BB CC`). -/
theorem DecodeDataPacket_Encode_roundtrip_witness :
    canonicalDataPacket dpSeed = true ∧
    DecodeDataPacket (DataPacket.Encode dpSeed) = some dpSeed :=
  ⟨by decide, DecodeDataPacket_Encode_roundtrip dpSeed (by decide)⟩

set_option maxRecDepth 100000 in
/-- C8 (counterexample to the claim as stated): flushing an MTU-576
session whose queue holds two 600-byte packets produces one datagram
containing both packets, whose 1210-byte encoding exceeds the MTU — the
drain loop never consults the MTU. -/
theorem Update_ignores_mtu :
    sBigQueue.MTU = 576 ∧
    (Session.Update sBigQueue).2.map (fun dp => dp.Packets.length) = some 2 ∧
    (Session.Update sBigQueue).2.map (fun dp => (DataPacket.Encode dp).length) =
      some 1210 ∧ 576 < 1210 := by
  refine ⟨rfl, by decide, ?_, by decide⟩
  decide

end GoRakNet
